import Mathlib

/-!
Verification development for the calendar core of zj-cal
(src/calendar.rs). The Rust code is shallowly embedded below:
chrono NaiveDateTime values become a structure of calendar fields,
chrono date arithmetic is embedded via the standard civil-from-days /
days-from-civil algorithms, and each Rust function of the module is
translated into an executable Lean definition of the same name.
-/

namespace ZjCal

/-- Embedding of chrono NaiveDate values: a calendar date. -/
structure Date where
  year : Int
  month : Nat
  day : Nat
deriving DecidableEq, Repr

/-- Embedding of chrono NaiveDateTime values: calendar date plus
time of day at second resolution. -/
structure NaiveDateTime where
  year : Int
  month : Nat
  day : Nat
  hour : Nat
  minute : Nat
  second : Nat
deriving DecidableEq, Repr

/-- The date part of a NaiveDateTime (chrono method date()). -/
def NaiveDateTime.date (dt : NaiveDateTime) : Date :=
  ⟨dt.year, dt.month, dt.day⟩

/-- Embedding of chrono date construction date.and_hms_opt(h, m, s)
(the repository only calls it with in-range arguments, where it
succeeds). -/
def Date.and_hms (d : Date) (h m s : Nat) : NaiveDateTime :=
  ⟨d.year, d.month, d.day, h, m, s⟩

/-- Number of days from 1970-01-01 to the given calendar date
(standard civil-calendar day count, used to embed chrono date
arithmetic and ordering). -/
def days_from_civil (y : Int) (m : Nat) (d : Nat) : Int :=
  let yAdj : Int := if m ≤ 2 then y - 1 else y
  let era : Int := Int.fdiv yAdj 400
  let yoe : Int := yAdj - era * 400
  let doy : Int := (153 * ((if 2 < m then m - 3 else m + 9) : Nat) + 2) / 5 + d - 1
  let doe : Int := yoe * 365 + Int.fdiv yoe 4 - Int.fdiv yoe 100 + doy
  era * 146097 + doe - 719468

/-- Inverse of days_from_civil: calendar date of a day number
(standard civil-calendar algorithm, used to embed chrono date
arithmetic). -/
def civil_from_days (z0 : Int) : Int × Nat × Nat :=
  let z : Int := z0 + 719468
  let era : Int := Int.fdiv z 146097
  let doe : Nat := (z - era * 146097).toNat
  let yoe : Nat := (doe - doe / 1460 + doe / 36524 - doe / 146096) / 365
  let y : Int := (yoe : Int) + era * 400
  let doy : Nat := doe - (365 * yoe + yoe / 4 - yoe / 100)
  let mp : Nat := (5 * doy + 2) / 153
  let d : Nat := doy - (153 * mp + 2) / 5 + 1
  let m : Nat := if mp < 10 then mp + 3 else mp - 9
  (if m ≤ 2 then y + 1 else y, m, d)

/-- Seconds from the epoch to a NaiveDateTime; chrono comparison of
NaiveDateTime values and chrono signed_duration_since are embedded
through this count. -/
def toSecs (dt : NaiveDateTime) : Int :=
  days_from_civil dt.year dt.month dt.day * 86400
    + dt.hour * 3600 + dt.minute * 60 + dt.second

/-- NaiveDateTime of an epoch-second count (normalising back to
calendar fields). -/
def fromSecs (s : Int) : NaiveDateTime :=
  let days : Int := Int.fdiv s 86400
  let sod : Nat := (s - days * 86400).toNat
  let c := civil_from_days days
  ⟨c.1, c.2.1, c.2.2, sod / 3600, sod % 3600 / 60, sod % 60⟩

/-- Embedding of chrono dt + Duration::minutes(m). -/
def addMinutes (dt : NaiveDateTime) (m : Int) : NaiveDateTime :=
  fromSecs (toSecs dt + m * 60)

/-- Seconds of the chrono duration a.signed_duration_since(b). -/
def signed_duration_since (a b : NaiveDateTime) : Int :=
  toSecs a - toSecs b

/-- Embedding of chrono Duration::num_minutes on a duration of the
given number of seconds: whole minutes, truncated toward zero. -/
def num_minutes (secs : Int) : Int :=
  Int.tdiv secs 60

/-- Date ordering (chrono Ord on NaiveDate), via the day count. -/
def dateLe (a b : Date) : Prop :=
  days_from_civil a.year a.month a.day ≤ days_from_civil b.year b.month b.day

/-- Strict date ordering (chrono Ord on NaiveDate). -/
def dateLt (a b : Date) : Prop :=
  days_from_civil a.year a.month a.day < days_from_civil b.year b.month b.day

instance (a b : Date) : Decidable (dateLe a b) := by
  unfold dateLe; infer_instance

instance (a b : Date) : Decidable (dateLt a b) := by
  unfold dateLt; infer_instance

/-- Validity of a NaiveDateTime: field ranges that every value chrono
can construct satisfies. -/
def NaiveDateTime.Valid (dt : NaiveDateTime) : Prop :=
  1 ≤ dt.month ∧ dt.month ≤ 12 ∧ 1 ≤ dt.day ∧ dt.day ≤ 31 ∧
    dt.hour ≤ 23 ∧ dt.minute ≤ 59 ∧ dt.second ≤ 59

instance (dt : NaiveDateTime) : Decidable dt.Valid := by
  unfold NaiveDateTime.Valid; infer_instance

/-- Rust format specifier 02 applied to a Nat: zero-pad to width 2. -/
def pad2 (n : Nat) : String :=
  if n < 10 then "0" ++ toString n else toString n

/-- Embedding of fmt_time from src/calendar.rs: formats hour/minute as
HH:MM (24h) or H:MM am/pm (12h). -/
def fmt_time (hour minute : Nat) (use_12h : Bool) : String :=
  if !use_12h then
    pad2 hour ++ ":" ++ pad2 minute
  else
    let hour_12 : Nat :=
      if hour = 0 then 12
      else if hour ≤ 11 then hour
      else if hour = 12 then 12
      else hour - 12
    let period : String := if hour ≤ 11 then "am" else "pm"
    toString hour_12 ++ ":" ++ pad2 minute ++ " " ++ period

/-- Lower-cased three-letter month abbreviation, as produced by the
chrono format specifier b followed by to_lowercase in fmt_datetime;
chrono only ever formats months 1 through 12. -/
def monthAbbrev : Nat → String
  | 1 => "jan" | 2 => "feb" | 3 => "mar" | 4 => "apr"
  | 5 => "may" | 6 => "jun" | 7 => "jul" | 8 => "aug"
  | 9 => "sep" | 10 => "oct" | 11 => "nov" | 12 => "dec"
  | _ => ""

/-- Embedding of fmt_datetime from src/calendar.rs: absolute display,
month + day (chrono format b and dash-d, lower-cased), with the time
appended unless the time of day is exactly midnight-to-the-minute. -/
def fmt_datetime (dt : NaiveDateTime) (use_12h : Bool) : String :=
  let is_all_day : Bool := dt.hour == 0 && dt.minute == 0
  let date : String := monthAbbrev dt.month ++ " " ++ toString dt.day
  if is_all_day then date
  else date ++ " " ++ fmt_time dt.hour dt.minute use_12h

/-- Embedding of fmt_relative_time from src/calendar.rs. -/
def fmt_relative_time (event_dt now_dt : NaiveDateTime) (use_12h : Bool) : String :=
  let minutes : Int := num_minutes (signed_duration_since event_dt now_dt)
  if ¬(0 ≤ minutes ∧ minutes ≤ 24 * 60) then
    fmt_datetime event_dt use_12h
  else
    let is_tomorrow : Bool := event_dt.date ≠ now_dt.date
    if minutes = 0 then "now"
    else if minutes ≤ 9 then "in " ++ toString minutes ++ " min"
    else if minutes ≤ 55 then "in " ++ toString ((minutes + 2) / 5 * 5) ++ " min"
    else if minutes ≤ 299 then
      let time := fmt_time event_dt.hour event_dt.minute use_12h
      let whole_hours := minutes / 60
      let remainder := minutes % 60
      let relative :=
        if 20 ≤ remainder ∧ remainder ≤ 40 then
          toString whole_hours ++ ".5 hrs"
        else
          let hours := if 40 < remainder then whole_hours + 1 else whole_hours
          if hours = 1 then "1 hr" else toString hours ++ " hrs"
      time ++ " (" ++ relative ++ ")"
    else if is_tomorrow then
      "tmrw " ++ fmt_time event_dt.hour event_dt.minute use_12h
    else
      "today " ++ fmt_time event_dt.hour event_dt.minute use_12h

example : fmt_relative_time ⟨2024, 1, 15, 10, 5, 0⟩ ⟨2024, 1, 15, 10, 0, 0⟩ true = "in 5 min" := by decide

example : fmt_relative_time ⟨2024, 1, 15, 10, 13, 0⟩ ⟨2024, 1, 15, 10, 0, 0⟩ true = "in 15 min" := by decide

example : fmt_relative_time ⟨2024, 1, 15, 11, 20, 0⟩ ⟨2024, 1, 15, 10, 0, 0⟩ true = "11:20 am (1.5 hrs)" := by decide

example : fmt_relative_time ⟨2024, 1, 16, 9, 0, 0⟩ ⟨2024, 1, 15, 20, 0, 0⟩ true = "tmrw 9:00 am" := by decide

example : fmt_relative_time ⟨2024, 1, 15, 18, 0, 0⟩ ⟨2024, 1, 15, 10, 0, 0⟩ true = "today 6:00 pm" := by decide

example : fmt_relative_time ⟨2024, 1, 17, 10, 0, 0⟩ ⟨2024, 1, 15, 10, 0, 0⟩ true = "jan 17 10:00 am" := by decide

example : fmt_relative_time ⟨2024, 1, 15, 8, 0, 0⟩ ⟨2024, 1, 15, 10, 0, 0⟩ true = "jan 15 8:00 am" := by decide

example : fmt_relative_time ⟨2024, 1, 15, 10, 56, 0⟩ ⟨2024, 1, 15, 10, 0, 0⟩ true = "10:56 am (1 hr)" := by decide

/-- Embedding of the Event struct of src/calendar.rs. -/
structure Event where
  summary : String
  start : NaiveDateTime
  «end» : Option NaiveDateTime
  location : Option String
  is_all_day : Bool
deriving DecidableEq, Repr

/-- Embedding of Event::is_in_progress: started and not ended. -/
def Event.is_in_progress (e : Event) (now : NaiveDateTime) : Bool :=
  match e.«end» with
  | some en => decide (toSecs e.start ≤ toSecs now) && decide (toSecs now < toSecs en)
  | none => false

/-- Embedding of Event::is_active_on: whether the event counts as
active on the given date. -/
def Event.is_active_on (e : Event) (date : Date) : Bool :=
  let start_date := e.start.date
  match e.«end» with
  | some en =>
    if e.is_all_day then
      decide (dateLe start_date date) && decide (dateLt date en.date)
    else
      let day_start := date.and_hms 0 0 0
      decide (dateLe start_date date) && decide (toSecs day_start < toSecs en)
  | none => start_date == date

/-- Embedding of filter_future from src/calendar.rs: stable sort by
start (Rust Vec::sort_by is stable, as is List.mergeSort), drop fully
past events keeping in-progress ones when a current time is known,
truncate to the display budget. -/
def filter_future (events : List Event) (current_time : Option NaiveDateTime)
    (limit : Nat) : List Event :=
  let sorted : List Event :=
    events.mergeSort (fun a b => decide (toSecs a.start ≤ toSecs b.start))
  let kept : List Event :=
    match current_time with
    | some now =>
      sorted.filter (fun e =>
        decide (toSecs now ≤ toSecs e.start) ||
          (match e.«end» with
           | some en => decide (toSecs now < toSecs en)
           | none => false))
    | none => sorted
  kept.take limit

/-- Embedding of the icalendar crate type CalendarDateTime: a
date-time that is floating (zone-less), UTC, or tagged with a named
zone. -/
inductive CalendarDateTime where
  | Floating (dt : NaiveDateTime)
  | Utc (dt : NaiveDateTime)
  | WithTimezone (date_time : NaiveDateTime) (tzid : String)
deriving DecidableEq, Repr

/-- Embedding of the icalendar crate type DatePerhapsTime: a date-time
or a bare date. -/
inductive DatePerhapsTime where
  | DateTime (cdt : CalendarDateTime)
  | Date (d : Date)
deriving DecidableEq, Repr

/-- Embedding of an icalendar event component, reduced to the fields
the decoder reads (get_summary, get_start, get_end, get_location). -/
structure ICalEventComp where
  summary : Option String
  dtstart : Option DatePerhapsTime
  dtend : Option DatePerhapsTime
  location : Option String
deriving DecidableEq, Repr

/-- Embedding of the icalendar crate type CalendarComponent, reduced
to the distinction parse_ics makes: event components versus all
others. -/
inductive CalendarComponent where
  | Event (e : ICalEventComp)
  | Other
deriving DecidableEq, Repr

/-- Embedding of parse_date_perhaps_time from src/calendar.rs:
floating date-times pass through, UTC date-times get the caller
offset added, zone-tagged date-times have the zone ignored, bare
dates become midnight. -/
def parse_date_perhaps_time (dt : DatePerhapsTime) (utc_offset_minutes : Int) :
    NaiveDateTime :=
  match dt with
  | .DateTime cdt =>
    match cdt with
    | .Floating d => d
    | .Utc d => addMinutes d utc_offset_minutes
    | .WithTimezone date_time _ => date_time
  | .Date date => date.and_hms 0 0 0

/-- The body of the filter_map closure of parse_ics: decode one
calendar component to an event, or skip it. -/
def decodeComponent (utc_offset_minutes : Int) (c : CalendarComponent) :
    Option Event :=
  match c with
  | .Event event =>
    match event.dtstart with
    | none => none
    | some start_raw =>
      let summary := (event.summary).getD "(no title)"
      let is_all_day : Bool :=
        match start_raw with
        | .Date _ => true
        | _ => false
      let start := parse_date_perhaps_time start_raw utc_offset_minutes
      let ed := (event.dtend).map (fun dt => parse_date_perhaps_time dt utc_offset_minutes)
      some ⟨summary, start, ed, event.location, is_all_day⟩
  | .Other => none

/-- Embedding of parse_ics from src/calendar.rs. The container parse
performed by the external icalendar crate is represented by the
Except-valued argument: an error value stands for a document the
crate rejects, a list of components for a parsed container. The
function body mirrors the repository code: map the container error to
a descriptive message, otherwise filter_map the components. -/
def parse_ics (parsed : Except String (List CalendarComponent))
    (utc_offset_minutes : Int) : Except String (List Event) :=
  match parsed with
  | .error e => .error ("Parse error: " ++ e)
  | .ok comps => .ok (comps.filterMap (decodeComponent utc_offset_minutes))

/-- Numeric value of a decimal digit character (Rust char arithmetic
inside integer parsing). -/
def digitVal (c : Char) : Nat := c.toNat - '0'.toNat

/-- Embedding of Rust str::parse::<i32> as used on the two-character
hour and minute fields: an optional sign followed by one or more
ASCII digits. Overflow is not modelled because the fields are two
characters, far below the i32 range. -/
def parse_i32 (cs : List Char) : Option Int :=
  let digits : List Char → Option Int := fun ds =>
    if ds ≠ [] ∧ ds.all Char.isDigit then
      some ((ds.foldl (fun a c => a * 10 + digitVal c) 0 : Nat) : Int)
    else none
  match cs with
  | '+' :: rest => digits rest
  | '-' :: rest => (digits rest).map (fun v => -v)
  | _ => digits cs

/-- Embedding of Rust str::trim: strip whitespace from both ends.
Strings are modelled as lists of characters, so indices count
characters; this coincides with Rust byte indexing on the ASCII
inputs the function is specified over. -/
def trimChars (cs : List Char) : List Char :=
  ((cs.dropWhile Char.isWhitespace).reverse.dropWhile Char.isWhitespace).reverse

/-- Embedding of parse_utc_offset from src/calendar.rs: trim, demand
five characters, read the sign, parse the two-character hour and
minute fields with Rust integer parsing. -/
def parse_utc_offset (s0 : List Char) : Option Int :=
  let s := trimChars s0
  if s.length ≠ 5 then none
  else
    match s.head? with
    | none => none
    | some c =>
      let sign : Option Int :=
        match c with
        | '+' => some 1
        | '-' => some (-1)
        | _ => none
      match sign with
      | none => none
      | some sg =>
        match parse_i32 ((s.drop 1).take 2), parse_i32 ((s.drop 3).take 2) with
        | some hours, some minutes => some (sg * (hours * 60 + minutes))
        | _, _ => none

example : parse_utc_offset ['-', '0', '5', '0', '0'] = some (-300) := by decide

example : parse_utc_offset ['+', '0', '5', '3', '0'] = some 330 := by decide

example : parse_utc_offset ['0', '5', '0', '0'] = none := by decide

example : parse_date_perhaps_time (.DateTime (.Utc ⟨2024, 1, 15, 15, 0, 0⟩)) (-300) = ⟨2024, 1, 15, 10, 0, 0⟩ := by decide

example : parse_date_perhaps_time (.DateTime (.Utc ⟨2024, 1, 1, 2, 0, 0⟩)) (-300) = ⟨2023, 12, 31, 21, 0, 0⟩ := by decide

/-- C6: is_in_progress holds exactly when an end is present and
start <= now < end on full instants including seconds; an event with
a start at 10:00:30 is not in progress at 10:00:15, and an event
without an end is never in progress. -/
theorem C6_is_in_progress :
    (∀ (e : Event) (now : NaiveDateTime),
      e.is_in_progress now = true ↔
        ∃ en, e.«end» = some en ∧ toSecs e.start ≤ toSecs now ∧ toSecs now < toSecs en) ∧
    (∀ (e : Event) (now : NaiveDateTime),
      e.«end» = none → e.is_in_progress now = false) ∧
    Event.is_in_progress
      ⟨"Meeting", ⟨2024, 1, 15, 10, 0, 30⟩, some ⟨2024, 1, 15, 11, 0, 0⟩, none, false⟩
      ⟨2024, 1, 15, 10, 0, 15⟩ = false := by
  refine ⟨?_, ?_, by decide⟩
  · intro e now
    cases h : e.«end» with
    | none => simp [Event.is_in_progress, h]
    | some en => simp [Event.is_in_progress, h, and_assoc]
  · intro e now h
    simp [Event.is_in_progress, h]

/-- C6 witness: the no-end clause applied to a concrete event. -/
theorem C6_is_in_progress_witness :
    Event.is_in_progress
      ⟨"No End", ⟨2024, 1, 15, 10, 0, 0⟩, none, none, false⟩
      ⟨2024, 1, 15, 10, 30, 0⟩ = false :=
  C6_is_in_progress.2.1
    ⟨"No End", ⟨2024, 1, 15, 10, 0, 0⟩, none, none, false⟩
    ⟨2024, 1, 15, 10, 30, 0⟩ rfl

/-- C7: is_active_on is end-date-exclusive for all-day events with an
end, overlap-with-the-day for timed events with an end (so an
overnight 23:00 to 01:00 event is active on its start day and the
next day), and exact-start-date for events with no end. -/
theorem C7_is_active_on :
    (∀ (e : Event) (d : Date) (en : NaiveDateTime),
      e.is_all_day = true → e.«end» = some en →
      (e.is_active_on d = true ↔ dateLe e.start.date d ∧ dateLt d en.date)) ∧
    (∀ (e : Event) (d : Date) (en : NaiveDateTime),
      e.is_all_day = false → e.«end» = some en →
      (e.is_active_on d = true ↔
        dateLe e.start.date d ∧ toSecs (d.and_hms 0 0 0) < toSecs en)) ∧
    (∀ (e : Event) (d : Date),
      e.«end» = none → (e.is_active_on d = true ↔ e.start.date = d)) ∧
    (Event.is_active_on
      ⟨"Overnight", ⟨2024, 1, 15, 23, 0, 0⟩, some ⟨2024, 1, 16, 1, 0, 0⟩, none, false⟩
      ⟨2024, 1, 15⟩ = true ∧
     Event.is_active_on
      ⟨"Overnight", ⟨2024, 1, 15, 23, 0, 0⟩, some ⟨2024, 1, 16, 1, 0, 0⟩, none, false⟩
      ⟨2024, 1, 16⟩ = true ∧
     Event.is_active_on
      ⟨"Overnight", ⟨2024, 1, 15, 23, 0, 0⟩, some ⟨2024, 1, 16, 1, 0, 0⟩, none, false⟩
      ⟨2024, 1, 14⟩ = false ∧
     Event.is_active_on
      ⟨"Overnight", ⟨2024, 1, 15, 23, 0, 0⟩, some ⟨2024, 1, 16, 1, 0, 0⟩, none, false⟩
      ⟨2024, 1, 17⟩ = false) := by
  refine ⟨?_, ?_, ?_, by decide, by decide, by decide, by decide⟩
  · intro e d en ha he
    simp [Event.is_active_on, ha, he]
  · intro e d en ha he
    simp [Event.is_active_on, ha, he]
  · intro e d he
    simp [Event.is_active_on, he]

/-- C7 witness: the no-end clause applied to a concrete event and
date. -/
theorem C7_is_active_on_witness :
    Event.is_active_on
      ⟨"Solo", ⟨2024, 1, 15, 10, 0, 0⟩, none, none, false⟩ ⟨2024, 1, 15⟩ = true :=
  (C7_is_active_on.2.2.1
    ⟨"Solo", ⟨2024, 1, 15, 10, 0, 0⟩, none, none, false⟩ ⟨2024, 1, 15⟩ rfl).mpr rfl

/-- C4: decoding gives is_all_day exactly for date-only starts,
date-only instants become midnight (so all-day events start at
midnight), floating date-times pass through, UTC date-times get the
caller offset added (15:00Z at offset -300 becomes 10:00), named-zone
date-times are treated as floating, and a missing summary becomes the
placeholder title. -/
theorem C4_parse_ics_normalization :
    (∀ (off : Int) (ev : ICalEventComp) (E : Event),
      decodeComponent off (.Event ev) = some E →
      (E.is_all_day = true ↔ ∃ d, ev.dtstart = some (.Date d))) ∧
    (∀ (d : Date) (off : Int),
      parse_date_perhaps_time (.Date d) off = d.and_hms 0 0 0) ∧
    (∀ (off : Int) (ev : ICalEventComp) (E : Event),
      decodeComponent off (.Event ev) = some E → E.is_all_day = true →
      E.start.hour = 0 ∧ E.start.minute = 0 ∧ E.start.second = 0) ∧
    (∀ (dt : NaiveDateTime) (off : Int),
      parse_date_perhaps_time (.DateTime (.Floating dt)) off = dt) ∧
    (∀ (dt : NaiveDateTime) (off : Int),
      parse_date_perhaps_time (.DateTime (.Utc dt)) off = addMinutes dt off) ∧
    parse_date_perhaps_time (.DateTime (.Utc ⟨2024, 1, 15, 15, 0, 0⟩)) (-300) =
      ⟨2024, 1, 15, 10, 0, 0⟩ ∧
    (∀ (dt : NaiveDateTime) (tz : String) (off : Int),
      parse_date_perhaps_time (.DateTime (.WithTimezone dt tz)) off =
        parse_date_perhaps_time (.DateTime (.Floating dt)) off) ∧
    (∀ (off : Int) (ev : ICalEventComp) (E : Event),
      ev.summary = none → decodeComponent off (.Event ev) = some E →
      E.summary = "(no title)") := by
  refine ⟨?_, fun d off => rfl, ?_, fun dt off => rfl, fun dt off => rfl,
    by decide, fun dt tz off => rfl, ?_⟩
  · intro off ev E hE
    cases hs : ev.dtstart with
    | none => simp [decodeComponent, hs] at hE
    | some sr =>
      simp [decodeComponent, hs] at hE
      cases sr with
      | DateTime cdt => simp [← hE, hs]
      | Date d => simp [← hE, hs]
  · intro off ev E hE hall
    cases hs : ev.dtstart with
    | none => simp [decodeComponent, hs] at hE
    | some sr =>
      simp [decodeComponent, hs] at hE
      cases sr with
      | DateTime cdt =>
        rw [← hE] at hall
        simp at hall
      | Date d =>
        rw [← hE]
        exact ⟨rfl, rfl, rfl⟩
  · intro off ev E hsum hE
    cases hs : ev.dtstart with
    | none => simp [decodeComponent, hs] at hE
    | some sr =>
      simp [decodeComponent, hs, hsum] at hE
      rw [← hE]

/-- C4 witness: the is_all_day clause applied to a concrete event
component with a date-only start. -/
theorem C4_parse_ics_normalization_witness :
    Event.is_all_day
      ⟨"Holiday", ⟨2024, 1, 15, 0, 0, 0⟩, some ⟨2024, 1, 16, 0, 0, 0⟩, none, true⟩ = true :=
  (C4_parse_ics_normalization.1 0
    ⟨some "Holiday", some (.Date ⟨2024, 1, 15⟩), some (.Date ⟨2024, 1, 16⟩), none⟩
    ⟨"Holiday", ⟨2024, 1, 15, 0, 0, 0⟩, some ⟨2024, 1, 16, 0, 0, 0⟩, none, true⟩
    (by decide)).mpr ⟨⟨2024, 1, 15⟩, rfl⟩

/-- C9: parse_ics propagates a container-level parse failure as a
descriptive error with no events, fails only in that case, and skips
an event component with no start while keeping the rest of the
document. -/
theorem C9_parse_ics_errors :
    (∀ (msg : String) (off : Int),
      parse_ics (.error msg) off = .error ("Parse error: " ++ msg)) ∧
    (∀ (p : Except String (List CalendarComponent)) (off : Int),
      (∃ m, parse_ics p off = .error m) ↔ ∃ m, p = .error m) ∧
    (∀ (pre post : List CalendarComponent) (ev : ICalEventComp) (off : Int),
      ev.dtstart = none →
      parse_ics (.ok (pre ++ CalendarComponent.Event ev :: post)) off =
        parse_ics (.ok (pre ++ post)) off) := by
  refine ⟨fun msg off => rfl, ?_, ?_⟩
  · intro p off
    cases p with
    | error msg => simp [parse_ics]
    | ok comps => simp [parse_ics]
  · intro pre post ev off h
    simp [parse_ics, List.filterMap_append, decodeComponent, h]

/-- C9 witness: the skip clause applied to a concrete document. -/
theorem C9_parse_ics_errors_witness :
    parse_ics (.ok [CalendarComponent.Event ⟨some "No Start", none, none, none⟩,
      CalendarComponent.Event ⟨some "Kept", some (.Date ⟨2024, 1, 15⟩), none, none⟩]) 0 =
    parse_ics (.ok [CalendarComponent.Event ⟨some "Kept", some (.Date ⟨2024, 1, 15⟩), none, none⟩]) 0 :=
  C9_parse_ics_errors.2.2 []
    [CalendarComponent.Event ⟨some "Kept", some (.Date ⟨2024, 1, 15⟩), none, none⟩]
    ⟨some "No Start", none, none, none⟩ 0 rfl

/-- C10: an event less than one full minute in the past still renders
as now, because the seconds difference is truncated toward zero to
whole minutes before the range check. -/
theorem C10_recent_past_shows_now :
    ∀ (e n : NaiveDateTime) (b : Bool),
      toSecs e < toSecs n → toSecs n - toSecs e < 60 →
      num_minutes (signed_duration_since e n) = 0 ∧ fmt_relative_time e n b = "now" := by
  intro e n b h1 h2
  have hm : num_minutes (signed_duration_since e n) = 0 := by
    unfold num_minutes signed_duration_since
    set d : Int := toSecs e - toSecs n with hd
    have h3 : (0 : Int) ≤ -d := by omega
    have h4 : -d < 60 := by omega
    have h5 : (-d).tdiv 60 = 0 := by
      rw [Int.tdiv_eq_ediv h3 (by norm_num)]
      exact Int.ediv_eq_zero_of_lt h3 h4
    have h6 : d.tdiv 60 = -((-d).tdiv 60) := by rw [Int.neg_tdiv, neg_neg]
    rw [h6, h5, neg_zero]
  refine ⟨hm, ?_⟩
  unfold fmt_relative_time
  simp [hm]

/-- C10 witness: thirty seconds in the past renders as now. -/
theorem C10_recent_past_shows_now_witness :
    num_minutes (signed_duration_since ⟨2024, 1, 15, 10, 0, 0⟩ ⟨2024, 1, 15, 10, 0, 30⟩) = 0 ∧
    fmt_relative_time ⟨2024, 1, 15, 10, 0, 0⟩ ⟨2024, 1, 15, 10, 0, 30⟩ true = "now" :=
  C10_recent_past_shows_now ⟨2024, 1, 15, 10, 0, 0⟩ ⟨2024, 1, 15, 10, 0, 30⟩ true
    (by decide) (by decide)

/-- C5: filter_future stably sorts ascending by start, keeps exactly
the events with start at or after now or a present end after now
(keeping everything when now is absent), truncates to the limit, and
maps an empty input to an empty output. -/
theorem C5_filter_future :
    ∀ (events : List Event) (current_time : Option NaiveDateTime) (limit : Nat),
      let sorted : List Event :=
        events.mergeSort (fun a b => decide (toSecs a.start ≤ toSecs b.start))
      sorted.Perm events ∧
      sorted.Pairwise (fun a b => toSecs a.start ≤ toSecs b.start) ∧
      (∀ a b : Event, [a, b].Sublist events → toSecs a.start ≤ toSecs b.start →
        [a, b].Sublist sorted) ∧
      filter_future events current_time limit =
        (match current_time with
         | some now =>
           sorted.filter (fun e : Event =>
             decide (toSecs now ≤ toSecs e.start) ||
               (match e.«end» with
                | some en => decide (toSecs now < toSecs en)
                | none => false))
         | none => sorted).take limit ∧
      filter_future [] current_time limit = [] := by
  intro events current_time limit
  have htrans : ∀ a b c : Event,
      (fun a b : Event => decide (toSecs a.start ≤ toSecs b.start)) a b = true →
      (fun a b : Event => decide (toSecs a.start ≤ toSecs b.start)) b c = true →
      (fun a b : Event => decide (toSecs a.start ≤ toSecs b.start)) a c = true := by
    intro a b c hab hbc
    simp only [decide_eq_true_eq] at *
    omega
  have htotal : ∀ a b : Event,
      ((fun a b : Event => decide (toSecs a.start ≤ toSecs b.start)) a b ||
       (fun a b : Event => decide (toSecs a.start ≤ toSecs b.start)) b a) = true := by
    intro a b
    simp only [Bool.or_eq_true, decide_eq_true_eq]
    exact Int.le_total _ _
  refine ⟨List.mergeSort_perm events _, ?_, ?_, rfl,
    by cases current_time <;> simp [filter_future, List.mergeSort_nil]⟩
  · have hs := List.sorted_mergeSort htrans htotal events
    exact hs.imp (fun h => by simpa using h)
  · intro a b hs hle
    exact List.sublist_mergeSort htrans htotal
      (by simp [List.pairwise_cons, hle]) hs

/-- C5 witness: the stability clause applied to a concrete two-event
list with equal starts. -/
theorem C5_filter_future_witness :
    [Event.mk "A" ⟨2024, 1, 15, 10, 0, 0⟩ none none false,
     Event.mk "B" ⟨2024, 1, 15, 10, 0, 0⟩ none none false].Sublist
      (([Event.mk "A" ⟨2024, 1, 15, 10, 0, 0⟩ none none false,
         Event.mk "B" ⟨2024, 1, 15, 10, 0, 0⟩ none none false]).mergeSort
        (fun a b => decide (toSecs a.start ≤ toSecs b.start))) :=
  (C5_filter_future
      [Event.mk "A" ⟨2024, 1, 15, 10, 0, 0⟩ none none false,
       Event.mk "B" ⟨2024, 1, 15, 10, 0, 0⟩ none none false] none 10).2.2.1 _ _
    (List.Sublist.refl _) (by decide)

/-- Rust integer parsing of a two-digit field. -/
theorem parse_i32_two_digits (a b : Char) (ha : a.isDigit = true) (hb : b.isDigit = true) :
    parse_i32 [a, b] = some ((digitVal a * 10 + digitVal b : Nat) : Int) := by
  have ha1 : a ≠ '+' := by rintro rfl; simp [Char.isDigit] at ha
  have ha2 : a ≠ '-' := by rintro rfl; simp [Char.isDigit] at ha
  unfold parse_i32
  split
  · rename_i rest heq
    exact absurd (List.head_eq_of_cons_eq heq) ha1
  · rename_i rest heq
    exact absurd (List.head_eq_of_cons_eq heq) ha2
  · simp [List.all, ha, hb]

/-- Reduction of parse_utc_offset on a five-character token equal to
its own trim. -/
theorem parse_utc_offset_cons (c0 c1 c2 c3 c4 : Char)
    (htrim : trimChars [c0, c1, c2, c3, c4] = [c0, c1, c2, c3, c4]) :
    parse_utc_offset [c0, c1, c2, c3, c4] =
      (match (match c0 with
              | '+' => some (1 : Int)
              | '-' => some (-1 : Int)
              | _ => none) with
       | none => none
       | some sg =>
         match parse_i32 [c1, c2], parse_i32 [c3, c4] with
         | some hours, some minutes => some (sg * (hours * 60 + minutes))
         | _, _ => none) := by
  unfold parse_utc_offset
  rw [htrim]
  rfl

/-- C8 counterexample: the token with a plus sign inside the hour
field is malformed under the claim (non-digit hour character), yet
parse_utc_offset accepts it, because Rust integer parsing of the
two-character field itself accepts a sign. -/
theorem C8_parse_utc_offset_counterexample :
    parse_utc_offset ['-', '+', '1', '0', '5'] = some (-65) ∧
    Char.isDigit '+' = false := by decide

/-- C8 amended: on a token equal to its own trim, a well-formed sHHMM
token yields sign times HH times sixty plus MM; the result is absent
when the trimmed token does not have length five, when the sign
character is neither plus nor minus, or when the hour or minute field
fails Rust signed-integer parsing (which accepts an optional leading
sign followed by digits, so a field such as +1 is accepted). -/
theorem C8_parse_utc_offset_amended :
    (∀ s : List Char, (trimChars s).length ≠ 5 → parse_utc_offset s = none) ∧
    (∀ c0 c1 c2 c3 c4 : Char,
      trimChars [c0, c1, c2, c3, c4] = [c0, c1, c2, c3, c4] →
      ((c0 = '+' ∨ c0 = '-') → c1.isDigit = true → c2.isDigit = true →
        c3.isDigit = true → c4.isDigit = true →
        parse_utc_offset [c0, c1, c2, c3, c4] =
          some ((if c0 = '+' then 1 else -1) *
            (((digitVal c1 * 10 + digitVal c2 : Nat) : Int) * 60 +
              ((digitVal c3 * 10 + digitVal c4 : Nat) : Int)))) ∧
      (c0 ≠ '+' → c0 ≠ '-' → parse_utc_offset [c0, c1, c2, c3, c4] = none) ∧
      (parse_i32 [c1, c2] = none → parse_utc_offset [c0, c1, c2, c3, c4] = none) ∧
      (parse_i32 [c3, c4] = none → parse_utc_offset [c0, c1, c2, c3, c4] = none)) := by
  constructor
  · intro s h
    unfold parse_utc_offset
    simp [h]
  · intro c0 c1 c2 c3 c4 htrim
    refine ⟨?_, ?_, ?_, ?_⟩
    · intro hsign h1 h2 h3 h4
      rw [parse_utc_offset_cons c0 c1 c2 c3 c4 htrim,
        parse_i32_two_digits c1 c2 h1 h2, parse_i32_two_digits c3 c4 h3 h4]
      rcases hsign with rfl | rfl
      · simp
      · simp
    · intro hp hm
      rw [parse_utc_offset_cons c0 c1 c2 c3 c4 htrim]
      have hsign : (match c0 with
          | '+' => some (1 : Int)
          | '-' => some (-1 : Int)
          | _ => none) = none := by
        split
        · exact absurd rfl hp
        · exact absurd rfl hm
        · rfl
      rw [hsign]
    · intro hf
      rw [parse_utc_offset_cons c0 c1 c2 c3 c4 htrim, hf]
      split
      · rfl
      · cases h4 : parse_i32 [c3, c4] <;> rfl
    · intro hf
      rw [parse_utc_offset_cons c0 c1 c2 c3 c4 htrim, hf]
      split
      · rfl
      · cases h1 : parse_i32 [c1, c2] <;> rfl

/-- C8 witness: the amended clauses applied to concrete tokens. -/
theorem C8_parse_utc_offset_amended_witness :
    parse_utc_offset ['+', '0', '5', '3', '0'] =
      some ((if ('+' : Char) = '+' then 1 else -1) *
        (((digitVal '0' * 10 + digitVal '5' : Nat) : Int) * 60 +
          ((digitVal '3' * 10 + digitVal '0' : Nat) : Int))) ∧
    parse_utc_offset ['0', '5', '0', '0'] = none :=
  ⟨(C8_parse_utc_offset_amended.2 '+' '0' '5' '3' '0' (by decide)).1
      (Or.inl rfl) (by decide) (by decide) (by decide) (by decide),
    C8_parse_utc_offset_amended.1 ['0', '5', '0', '0'] (by decide)⟩

/-- Appending strings concatenates their character data. -/
theorem sdata_append (s t : String) : (s ++ t).data = s.data ++ t.data := rfl

/-- In range, fmt_relative_time reaches the branch on the minute
count; out of range it returns the absolute label. -/
theorem frt_eq_abs (e n : NaiveDateTime) (b : Bool)
    (h : num_minutes (signed_duration_since e n) < 0 ∨
      1440 < num_minutes (signed_duration_since e n)) :
    fmt_relative_time e n b = fmt_datetime e b := by
  simp only [fmt_relative_time]
  rw [if_pos (by omega)]

/-- Branch lemma: a zero minute count renders as now. -/
theorem frt_eq_now (e n : NaiveDateTime) (b : Bool)
    (h : num_minutes (signed_duration_since e n) = 0) :
    fmt_relative_time e n b = "now" := by
  simp only [fmt_relative_time]
  rw [if_neg (by omega), if_pos h]

/-- Branch lemma: minute counts one through nine render exactly. -/
theorem frt_eq_in_exact (e n : NaiveDateTime) (b : Bool)
    (h1 : 1 ≤ num_minutes (signed_duration_since e n))
    (h2 : num_minutes (signed_duration_since e n) ≤ 9) :
    fmt_relative_time e n b =
      "in " ++ toString (num_minutes (signed_duration_since e n)) ++ " min" := by
  simp only [fmt_relative_time]
  rw [if_neg (by omega), if_neg (by omega), if_pos (by omega)]

/-- Branch lemma: minute counts ten through fifty-five render rounded
to the nearest multiple of five. -/
theorem frt_eq_in_round (e n : NaiveDateTime) (b : Bool)
    (h1 : 10 ≤ num_minutes (signed_duration_since e n))
    (h2 : num_minutes (signed_duration_since e n) ≤ 55) :
    fmt_relative_time e n b =
      "in " ++ toString ((num_minutes (signed_duration_since e n) + 2) / 5 * 5) ++ " min" := by
  simp only [fmt_relative_time]
  rw [if_neg (by omega), if_neg (by omega), if_neg (by omega), if_pos (by omega)]

/-- Branch lemma: minute counts fifty-six through 299 render the
event time with a parenthesised hour phrase. -/
theorem frt_eq_hours (e n : NaiveDateTime) (b : Bool)
    (h1 : 56 ≤ num_minutes (signed_duration_since e n))
    (h2 : num_minutes (signed_duration_since e n) ≤ 299) :
    fmt_relative_time e n b =
      fmt_time e.hour e.minute b ++ " (" ++
        (if 20 ≤ num_minutes (signed_duration_since e n) % 60 ∧
            num_minutes (signed_duration_since e n) % 60 ≤ 40 then
          toString (num_minutes (signed_duration_since e n) / 60) ++ ".5 hrs"
         else if 40 < num_minutes (signed_duration_since e n) % 60 then
          (if num_minutes (signed_duration_since e n) / 60 + 1 = 1 then "1 hr"
           else toString (num_minutes (signed_duration_since e n) / 60 + 1) ++ " hrs")
         else
          (if num_minutes (signed_duration_since e n) / 60 = 1 then "1 hr"
           else toString (num_minutes (signed_duration_since e n) / 60) ++ " hrs")) ++ ")" := by
  simp only [fmt_relative_time]
  rw [if_neg (by omega), if_neg (by omega), if_neg (by omega), if_neg (by omega),
    if_pos (by omega)]
  by_cases hrem : 20 ≤ num_minutes (signed_duration_since e n) % 60 ∧
      num_minutes (signed_duration_since e n) % 60 ≤ 40
  · rw [if_pos hrem, if_pos hrem]
  · rw [if_neg hrem, if_neg hrem]
    by_cases h40 : 40 < num_minutes (signed_duration_since e n) % 60
    · rw [if_pos h40, if_pos h40]
    · rw [if_neg h40, if_neg h40]

/-- Branch lemma: minute counts 300 through 1440 render as tmrw or
today with the event time, by calendar-date comparison. -/
theorem frt_eq_day (e n : NaiveDateTime) (b : Bool)
    (h1 : 300 ≤ num_minutes (signed_duration_since e n))
    (h2 : num_minutes (signed_duration_since e n) ≤ 1440) :
    fmt_relative_time e n b =
      if e.date ≠ n.date then "tmrw " ++ fmt_time e.hour e.minute b
      else "today " ++ fmt_time e.hour e.minute b := by
  simp only [fmt_relative_time]
  rw [if_neg (by omega), if_neg (by omega), if_neg (by omega), if_neg (by omega),
    if_neg (by omega)]
  by_cases hd : e.date = n.date
  · simp [hd]
  · simp [hd]

/-- C2: for minute differences 56 through 299, fmt_relative_time
returns the event time followed by a parenthesised hour phrase: with
h the whole hours and r the remainder minutes, h.5 hrs when r is 20
through 40, otherwise the count h+1 when r exceeds 40 and h when r is
below 20, written 1 hr for exactly one and with hrs otherwise. -/
theorem C2_hour_bucket (e n : NaiveDateTime) (b : Bool)
    (h1 : 56 ≤ num_minutes (signed_duration_since e n))
    (h2 : num_minutes (signed_duration_since e n) ≤ 299) :
    fmt_relative_time e n b =
      fmt_time e.hour e.minute b ++ " (" ++
        (if 20 ≤ num_minutes (signed_duration_since e n) % 60 ∧
            num_minutes (signed_duration_since e n) % 60 ≤ 40 then
          toString (num_minutes (signed_duration_since e n) / 60) ++ ".5 hrs"
         else if 40 < num_minutes (signed_duration_since e n) % 60 then
          (if num_minutes (signed_duration_since e n) / 60 + 1 = 1 then "1 hr"
           else toString (num_minutes (signed_duration_since e n) / 60 + 1) ++ " hrs")
         else
          (if num_minutes (signed_duration_since e n) / 60 = 1 then "1 hr"
           else toString (num_minutes (signed_duration_since e n) / 60) ++ " hrs")) ++ ")" :=
  frt_eq_hours e n b h1 h2

/-- C2 witness: eighty minutes ahead renders as the event time with a
1.5 hrs phrase. -/
theorem C2_hour_bucket_witness :
    fmt_relative_time ⟨2024, 1, 15, 11, 20, 0⟩ ⟨2024, 1, 15, 10, 0, 0⟩ true =
      "11:20 am (1.5 hrs)" :=
  (C2_hour_bucket ⟨2024, 1, 15, 11, 20, 0⟩ ⟨2024, 1, 15, 10, 0, 0⟩ true
    (by decide) (by decide)).trans (by decide)

/-- C3: for minute differences 300 through 1440, fmt_relative_time
prefixes the event time with tmrw when the calendar dates differ and
with today when they coincide. -/
theorem C3_today_tomorrow (e n : NaiveDateTime) (b : Bool)
    (h1 : 300 ≤ num_minutes (signed_duration_since e n))
    (h2 : num_minutes (signed_duration_since e n) ≤ 1440) :
    fmt_relative_time e n b =
      if e.date ≠ n.date then "tmrw " ++ fmt_time e.hour e.minute b
      else "today " ++ fmt_time e.hour e.minute b :=
  frt_eq_day e n b h1 h2

/-- C3 witness: an event the next morning renders with the tmrw
prefix, one the same evening with the today prefix. -/
theorem C3_today_tomorrow_witness :
    fmt_relative_time ⟨2024, 1, 16, 9, 0, 0⟩ ⟨2024, 1, 15, 20, 0, 0⟩ true = "tmrw 9:00 am" ∧
    fmt_relative_time ⟨2024, 1, 15, 18, 0, 0⟩ ⟨2024, 1, 15, 10, 0, 0⟩ true = "today 6:00 pm" :=
  ⟨(C3_today_tomorrow ⟨2024, 1, 16, 9, 0, 0⟩ ⟨2024, 1, 15, 20, 0, 0⟩ true
      (by decide) (by decide)).trans (by decide),
   (C3_today_tomorrow ⟨2024, 1, 15, 18, 0, 0⟩ ⟨2024, 1, 15, 10, 0, 0⟩ true
      (by decide) (by decide)).trans (by decide)⟩

/-- Facts about month abbreviations: three characters long, starting
with a letter that is not a digit and is neither i nor t. -/
theorem monthAbbrev_facts : ∀ mo : Nat, 1 ≤ mo → mo ≤ 12 →
    (monthAbbrev mo).data.length = 3 ∧
    ((monthAbbrev mo).data.getD 0 ' ').isDigit = false ∧
    (monthAbbrev mo).data.getD 0 ' ' ≠ 'i' ∧
    (monthAbbrev mo).data.getD 0 ' ' ≠ 't' := by decide

/-- A day number up to 31 has a nonempty decimal rendering. -/
theorem toString_day_len : ∀ d : Nat, d ≤ 31 → 0 < (toString d).data.length := by decide

/-- Shape of fmt_datetime output: month abbreviation, space, day, and
possibly more. -/
theorem fmt_datetime_shape (dt : NaiveDateTime) (b : Bool) :
    ∃ tail, (fmt_datetime dt b).data =
      (monthAbbrev dt.month).data ++ ' ' :: ((toString dt.day).data ++ tail) := by
  dsimp only [fmt_datetime]
  split
  · exact ⟨[], by simp [sdata_append]⟩
  · exact ⟨' ' :: (fmt_time dt.hour dt.minute b).data,
      by simp [sdata_append]⟩

/-- The first character of fmt_datetime output is the first character
of the month abbreviation, and the output has at least five
characters. -/
theorem fmt_datetime_head (dt : NaiveDateTime) (b : Bool) (hv : dt.Valid) :
    (fmt_datetime dt b).data.getD 0 ' ' = (monthAbbrev dt.month).data.getD 0 ' ' ∧
    5 ≤ (fmt_datetime dt b).data.length := by
  obtain ⟨tail, ht⟩ := fmt_datetime_shape dt b
  obtain ⟨h1, _, _, _⟩ := monthAbbrev_facts dt.month hv.1 hv.2.1
  have hd := toString_day_len dt.day hv.2.2.2.1
  constructor
  · rw [ht, List.getD_append]
    omega
  · rw [ht]
    simp only [List.length_append, List.length_cons]
    omega

/-- Zero-padded two-digit fields are nonempty and start with a
digit. -/
theorem pad2_head : ∀ h : Nat, h ≤ 59 →
    0 < (pad2 h).data.length ∧ ((pad2 h).data.getD 0 ' ').isDigit = true := by decide

/-- The twelve-hour field is nonempty and starts with a digit. -/
theorem hour12_head : ∀ h : Nat, h ≤ 23 →
    0 < (toString (if h = 0 then 12 else if h ≤ 11 then h
      else if h = 12 then 12 else h - 12)).data.length ∧
    ((toString (if h = 0 then 12 else if h ≤ 11 then h
      else if h = 12 then 12 else h - 12)).data.getD 0 ' ').isDigit = true := by decide

/-- Output of fmt_time is nonempty and starts with a digit. -/
theorem fmt_time_head (h mi : Nat) (b : Bool) (hh : h ≤ 23) :
    0 < (fmt_time h mi b).data.length ∧
    ((fmt_time h mi b).data.getD 0 ' ').isDigit = true := by
  cases b with
  | false =>
    obtain ⟨hl, hd⟩ := pad2_head h (by omega)
    show 0 < ((pad2 h ++ ":" ++ pad2 mi).data).length ∧
      (((pad2 h ++ ":" ++ pad2 mi).data).getD 0 ' ').isDigit = true
    rw [sdata_append, sdata_append]
    refine ⟨by simp only [List.length_append]; omega, ?_⟩
    rw [List.getD_append _ _ _ 0 (by simp only [List.length_append]; omega),
      List.getD_append _ _ _ 0 hl]
    exact hd
  | true =>
    obtain ⟨hl, hd⟩ := hour12_head h hh
    show 0 < ((toString (if h = 0 then 12 else if h ≤ 11 then h
        else if h = 12 then 12 else h - 12) ++ ":" ++ pad2 mi ++ " " ++
        (if h ≤ 11 then "am" else "pm")).data).length ∧
      (((toString (if h = 0 then 12 else if h ≤ 11 then h
        else if h = 12 then 12 else h - 12) ++ ":" ++ pad2 mi ++ " " ++
        (if h ≤ 11 then "am" else "pm")).data).getD 0 ' ').isDigit = true
    rw [sdata_append, sdata_append, sdata_append, sdata_append]
    refine ⟨by simp only [List.length_append]; omega, ?_⟩
    rw [List.getD_append _ _ _ 0 (by simp only [List.length_append]; omega),
      List.getD_append _ _ _ 0 (by simp only [List.length_append]; omega),
      List.getD_append _ _ _ 0 (by simp only [List.length_append]; omega),
      List.getD_append _ _ _ 0 hl]
    exact hd

/-- A now literal never equals an absolute fmt_datetime label. -/
theorem now_ne_fmt_datetime (dt : NaiveDateTime) (b : Bool) (hv : dt.Valid) :
    ("now" : String) ≠ fmt_datetime dt b := by
  intro h
  have hl : ("now" : String).data.length = (fmt_datetime dt b).data.length := by rw [h]
  have h3 : ("now" : String).data.length = 3 := rfl
  obtain ⟨_, hlen⟩ := fmt_datetime_head dt b hv
  omega

/-- An in-prefixed phrase never equals an fmt_datetime label. -/
theorem in_led_ne_fmt_datetime (s t : String) (dt : NaiveDateTime) (b : Bool)
    (hv : dt.Valid) : "in " ++ s ++ t ≠ fmt_datetime dt b := by
  intro h
  have hg : ("in " ++ s ++ t).data.getD 0 ' ' = (fmt_datetime dt b).data.getD 0 ' ' := by
    rw [h]
  have hi : ("in " ++ s ++ t).data.getD 0 ' ' = 'i' := rfl
  obtain ⟨hgd, _⟩ := fmt_datetime_head dt b hv
  obtain ⟨_, _, h3, _⟩ := monthAbbrev_facts dt.month hv.1 hv.2.1
  rw [hi, hgd] at hg
  exact h3 hg.symm

/-- A tmrw-prefixed phrase never equals an fmt_datetime label. -/
theorem tmrw_ne_fmt_datetime (s : String) (dt : NaiveDateTime) (b : Bool)
    (hv : dt.Valid) : "tmrw " ++ s ≠ fmt_datetime dt b := by
  intro h
  have hg : ("tmrw " ++ s).data.getD 0 ' ' = (fmt_datetime dt b).data.getD 0 ' ' := by
    rw [h]
  have hi : ("tmrw " ++ s).data.getD 0 ' ' = 't' := rfl
  obtain ⟨hgd, _⟩ := fmt_datetime_head dt b hv
  obtain ⟨_, _, _, h4⟩ := monthAbbrev_facts dt.month hv.1 hv.2.1
  rw [hi, hgd] at hg
  exact h4 hg.symm

/-- A today-prefixed phrase never equals an fmt_datetime label. -/
theorem today_ne_fmt_datetime (s : String) (dt : NaiveDateTime) (b : Bool)
    (hv : dt.Valid) : "today " ++ s ≠ fmt_datetime dt b := by
  intro h
  have hg : ("today " ++ s).data.getD 0 ' ' = (fmt_datetime dt b).data.getD 0 ' ' := by
    rw [h]
  have hi : ("today " ++ s).data.getD 0 ' ' = 't' := rfl
  obtain ⟨hgd, _⟩ := fmt_datetime_head dt b hv
  obtain ⟨_, _, _, h4⟩ := monthAbbrev_facts dt.month hv.1 hv.2.1
  rw [hi, hgd] at hg
  exact h4 hg.symm

/-- A phrase led by an fmt_time output never equals an fmt_datetime
label. -/
theorem time_led_ne_fmt_datetime (h mi : Nat) (b : Bool) (s t u : String)
    (dt : NaiveDateTime) (b2 : Bool) (hh : h ≤ 23) (hv : dt.Valid) :
    fmt_time h mi b ++ s ++ t ++ u ≠ fmt_datetime dt b2 := by
  intro heq
  obtain ⟨hfl, hfd⟩ := fmt_time_head h mi b hh
  have hg : (fmt_time h mi b ++ s ++ t ++ u).data.getD 0 ' ' =
      (fmt_datetime dt b2).data.getD 0 ' ' := by rw [heq]
  have hL : (fmt_time h mi b ++ s ++ t ++ u).data.getD 0 ' ' =
      (fmt_time h mi b).data.getD 0 ' ' := by
    rw [sdata_append, sdata_append, sdata_append]
    rw [List.getD_append _ _ _ 0 (by simp only [List.length_append]; omega),
      List.getD_append _ _ _ 0 (by simp only [List.length_append]; omega),
      List.getD_append _ _ _ 0 hfl]
  obtain ⟨hgd, _⟩ := fmt_datetime_head dt b2 hv
  obtain ⟨_, h2, _, _⟩ := monthAbbrev_facts dt.month hv.1 hv.2.1
  rw [hL, hgd] at hg
  rw [hg] at hfd
  rw [hfd] at h2
  exact absurd h2 (by decide)

/-- An in-prefixed phrase is never the now literal. -/
theorem in_led_ne_now (s t : String) : "in " ++ s ++ t ≠ "now" := by
  intro h
  have hg : ("in " ++ s ++ t).data.getD 0 ' ' = ("now" : String).data.getD 0 ' ' := by
    rw [h]
  have hi : ("in " ++ s ++ t).data.getD 0 ' ' = 'i' := rfl
  rw [hi] at hg
  exact absurd hg (by decide)

/-- A tmrw-prefixed phrase is never the now literal. -/
theorem tmrw_ne_now (s : String) : "tmrw " ++ s ≠ "now" := by
  intro h
  have hg : ("tmrw " ++ s).data.getD 0 ' ' = ("now" : String).data.getD 0 ' ' := by
    rw [h]
  have hi : ("tmrw " ++ s).data.getD 0 ' ' = 't' := rfl
  rw [hi] at hg
  exact absurd hg (by decide)

/-- A today-prefixed phrase is never the now literal. -/
theorem today_ne_now (s : String) : "today " ++ s ≠ "now" := by
  intro h
  have hg : ("today " ++ s).data.getD 0 ' ' = ("now" : String).data.getD 0 ' ' := by
    rw [h]
  have hi : ("today " ++ s).data.getD 0 ' ' = 't' := rfl
  rw [hi] at hg
  exact absurd hg (by decide)

/-- A phrase led by an fmt_time output is never the now literal. -/
theorem time_led_ne_now (h mi : Nat) (b : Bool) (s t u : String) (hh : h ≤ 23) :
    fmt_time h mi b ++ s ++ t ++ u ≠ "now" := by
  intro heq
  obtain ⟨hfl, hfd⟩ := fmt_time_head h mi b hh
  have hg : (fmt_time h mi b ++ s ++ t ++ u).data.getD 0 ' ' =
      ("now" : String).data.getD 0 ' ' := by rw [heq]
  have hL : (fmt_time h mi b ++ s ++ t ++ u).data.getD 0 ' ' =
      (fmt_time h mi b).data.getD 0 ' ' := by
    rw [sdata_append, sdata_append, sdata_append]
    rw [List.getD_append _ _ _ 0 (by simp only [List.length_append]; omega),
      List.getD_append _ _ _ 0 (by simp only [List.length_append]; omega),
      List.getD_append _ _ _ 0 hfl]
  rw [hL] at hg
  rw [hg] at hfd
  exact absurd hfd (by decide)

/-- C1: with m the truncated whole-minute difference event minus now,
fmt_relative_time returns the absolute fmt_datetime label exactly
when m is negative or above 1440, returns now exactly when m is zero,
returns the exact phrase for m from one to nine, and returns the
rounded-to-five phrase, computed as (m+2)/5*5, for m from ten to
fifty-five. -/
theorem C1_minute_buckets (e n : NaiveDateTime) (b : Bool) (hv : e.Valid) :
    (fmt_relative_time e n b = fmt_datetime e b ↔
      (num_minutes (signed_duration_since e n) < 0 ∨
        1440 < num_minutes (signed_duration_since e n))) ∧
    (fmt_relative_time e n b = "now" ↔ num_minutes (signed_duration_since e n) = 0) ∧
    (1 ≤ num_minutes (signed_duration_since e n) →
      num_minutes (signed_duration_since e n) ≤ 9 →
      fmt_relative_time e n b =
        "in " ++ toString (num_minutes (signed_duration_since e n)) ++ " min") ∧
    (10 ≤ num_minutes (signed_duration_since e n) →
      num_minutes (signed_duration_since e n) ≤ 55 →
      fmt_relative_time e n b =
        "in " ++ toString ((num_minutes (signed_duration_since e n) + 2) / 5 * 5) ++
          " min") := by
  have hh : e.hour ≤ 23 := hv.2.2.2.2.1
  refine ⟨⟨?_, frt_eq_abs e n b⟩, ⟨?_, frt_eq_now e n b⟩,
    frt_eq_in_exact e n b, frt_eq_in_round e n b⟩
  · intro heq
    by_contra hcon
    push_neg at hcon
    obtain ⟨hm0, hm1⟩ := hcon
    rcases (show num_minutes (signed_duration_since e n) = 0 ∨
        (1 ≤ num_minutes (signed_duration_since e n) ∧
          num_minutes (signed_duration_since e n) ≤ 9) ∨
        (10 ≤ num_minutes (signed_duration_since e n) ∧
          num_minutes (signed_duration_since e n) ≤ 55) ∨
        (56 ≤ num_minutes (signed_duration_since e n) ∧
          num_minutes (signed_duration_since e n) ≤ 299) ∨
        (300 ≤ num_minutes (signed_duration_since e n) ∧
          num_minutes (signed_duration_since e n) ≤ 1440) from by omega)
      with h | ⟨h1, h2⟩ | ⟨h1, h2⟩ | ⟨h1, h2⟩ | ⟨h1, h2⟩
    · rw [frt_eq_now e n b h] at heq
      exact now_ne_fmt_datetime e b hv heq
    · rw [frt_eq_in_exact e n b h1 h2] at heq
      exact in_led_ne_fmt_datetime _ _ e b hv heq
    · rw [frt_eq_in_round e n b h1 h2] at heq
      exact in_led_ne_fmt_datetime _ _ e b hv heq
    · rw [frt_eq_hours e n b h1 h2] at heq
      exact time_led_ne_fmt_datetime e.hour e.minute b _ _ _ e b hh hv heq
    · rw [frt_eq_day e n b h1 h2] at heq
      by_cases hd : e.date = n.date
      · rw [if_neg (by simp [hd])] at heq
        exact today_ne_fmt_datetime _ e b hv heq
      · rw [if_pos hd] at heq
        exact tmrw_ne_fmt_datetime _ e b hv heq
  · intro heq
    by_cases hr : 0 ≤ num_minutes (signed_duration_since e n) ∧
        num_minutes (signed_duration_since e n) ≤ 1440
    · by_contra hne
      rcases (show (1 ≤ num_minutes (signed_duration_since e n) ∧
            num_minutes (signed_duration_since e n) ≤ 9) ∨
          (10 ≤ num_minutes (signed_duration_since e n) ∧
            num_minutes (signed_duration_since e n) ≤ 55) ∨
          (56 ≤ num_minutes (signed_duration_since e n) ∧
            num_minutes (signed_duration_since e n) ≤ 299) ∨
          (300 ≤ num_minutes (signed_duration_since e n) ∧
            num_minutes (signed_duration_since e n) ≤ 1440) from by omega)
        with ⟨h1, h2⟩ | ⟨h1, h2⟩ | ⟨h1, h2⟩ | ⟨h1, h2⟩
      · rw [frt_eq_in_exact e n b h1 h2] at heq
        exact in_led_ne_now _ _ heq
      · rw [frt_eq_in_round e n b h1 h2] at heq
        exact in_led_ne_now _ _ heq
      · rw [frt_eq_hours e n b h1 h2] at heq
        exact time_led_ne_now e.hour e.minute b _ _ _ hh heq
      · rw [frt_eq_day e n b h1 h2] at heq
        by_cases hd : e.date = n.date
        · rw [if_neg (by simp [hd])] at heq
          exact today_ne_now _ heq
        · rw [if_pos hd] at heq
          exact tmrw_ne_now _ heq
    · exfalso
      rw [frt_eq_abs e n b (by omega)] at heq
      exact now_ne_fmt_datetime e b hv heq.symm

/-- C1 witness: thirteen minutes ahead rounds to fifteen. -/
theorem C1_minute_buckets_witness :
    fmt_relative_time ⟨2024, 1, 15, 10, 13, 0⟩ ⟨2024, 1, 15, 10, 0, 0⟩ true = "in 15 min" :=
  ((C1_minute_buckets ⟨2024, 1, 15, 10, 13, 0⟩ ⟨2024, 1, 15, 10, 0, 0⟩ true
      (by decide)).2.2.2 (by decide) (by decide)).trans (by decide)

end ZjCal
